import Mathlib

/-!
# Verification of the MHM pulse-jump levitation simulator

Shallow embedding of `mhm_pulse_jumping_system.py` (class `MHMPulseJumpingSystem`)
and of the vectorized lift-force expression in
`mhm_levitation_mainstream_validation.py`, over the real numbers.

Modelling notes, traceable to the Python source:
* Arrays `height`, `velocity`, `acceleration`, `force`, `current_profile` are
  `np.zeros(time_steps)` with `height[0] = 0.05` set before the loop.
* Inside the loop, at iteration `i`, the magnetic field is computed from
  `height[i]` BEFORE the `if i > 0:` block assigns `height[i]`.  Hence the
  field is evaluated at `0.05` m for `i = 0` and at the zero-initialised
  value `0` m for every `i ≥ 1`.  The embedding (`heightForField`) reproduces
  this read-before-write behaviour exactly as the interpreter executes it.
* `t = np.linspace(0, 2.0, 2000)`, so `t[i] = 2·i/1999`, while the Euler
  update uses the separate constant `dt = 0.001`.
* The `Resonant_Pumping` branch reads `height[max(0, i-1)]`, i.e. the value
  written at the previous iteration (or the initial `0.05` for `i = 0`);
  the state recursion carries that previous height alongside the pair
  `(height[i], velocity[i])`.
-/

namespace MHMPulse

/-- `self.mu0 = 4 * np.pi * 1e-7`. -/
noncomputable def mu0 : ℝ := 4 * Real.pi * 1e-7

/-- `self.g = 9.81`. -/
noncomputable def g : ℝ := 9.81

/-- `self.mass = 79.4`. -/
noncomputable def mass : ℝ := 79.4

/-- `self.weight = self.mass * self.g`. -/
noncomputable def weight : ℝ := mass * g

/-- `self.num_coils = 27`. -/
noncomputable def num_coils : ℝ := 27

/-- `self.B_static = 1.8` (Tesla), the static-field constant of the instance. -/
noncomputable def B_static_const : ℝ := 1.8

/-- `self.coil_area = 0.44`. -/
noncomputable def coil_area : ℝ := 0.44

/-- `self.N_turns = 216`. -/
noncomputable def N_turns : ℝ := 216

/-- `self.R_coil = 0.1875`. -/
noncomputable def R_coil : ℝ := 0.1875

/-- `self.array_factor = 18.0`. -/
noncomputable def array_factor : ℝ := 18.0

/-- `self.max_current_continuous = 300`. -/
noncomputable def max_current_continuous : ℝ := 300

/-- `self.max_current_pulse = 2000`. -/
noncomputable def max_current_pulse : ℝ := 2000

/-- `MHMPulseJumpingSystem.calculate_field_at_distance`: returns the triple
`(B_total, B_static, B_coil)`.  The coil falloff uses the real exponent `1.2`
(`coil_distance_factor = (R_coil / (R_coil + distance))**1.2`). -/
noncomputable def calculate_field_at_distance
    (distance current_multiplier : ℝ) (pulse_mode : Bool) : ℝ × ℝ × ℝ :=
  let magnet_thickness : ℝ := 0.03
  let static_ratio : ℝ := (magnet_thickness / (magnet_thickness + distance)) ^ 2
  let B_static : ℝ := B_static_const * static_ratio
  let max_current : ℝ := if pulse_mode then max_current_pulse else max_current_continuous
  let efficiency : ℝ := if pulse_mode then 0.98 else 0.95
  let current : ℝ := max_current * current_multiplier
  let B_coil_base : ℝ := (mu0 * N_turns * current * 3) / (2 * R_coil)
  let coil_distance_factor : ℝ := (R_coil / (R_coil + distance)) ^ (1.2 : ℝ)
  let B_coil : ℝ := B_coil_base * coil_distance_factor * efficiency * (array_factor / num_coils)
  (B_static + B_coil, B_static, B_coil)

/-- `MHMPulseJumpingSystem.calculate_lift_force`:
`(B_total**2 * total_area * 0.95) / (2 * self.mu0)` with
`total_area = self.coil_area * self.num_coils`. -/
noncomputable def calculate_lift_force (B_total : ℝ) : ℝ :=
  let total_area : ℝ := coil_area * num_coils
  (B_total ^ 2 * total_area * 0.95) / (2 * mu0)

/-- The vectorized lift force of `mhm_levitation_mainstream_validation.py`,
applied pointwise to one entry of `B_total`:
`F_lift = (B_total**2 * area) / (2 * mu0)` with `area = 0.25`. -/
noncomputable def F_lift (B_total : ℝ) : ℝ :=
  let area : ℝ := 0.25
  (B_total ^ 2 * area) / (2 * mu0)

/-- The four keys of `self.pulse_patterns`. -/
inductive PulsePattern
  | Single_Boost
  | Resonant_Pumping
  | Staircase_Climbing
  | Tesla_369_Resonance
  deriving DecidableEq

/-- The per-iteration current multiplier of `simulate_pulse_jump`
(lines 114–141): `time` is `t[i]` and `hprev` is `height[max(0, i-1)]`
(only the `Resonant_Pumping` branch reads it).  The `Staircase_Climbing`
loop over `pulse_times = [0.2, 0.6, 1.0, 1.4]` overwrites `0.15` with `0.8`
when `pulse_time <= time <= pulse_time + 0.1`; the windows are pairwise
disjoint, so the unrolled if-chain below computes the same value. -/
noncomputable def currentMult (p : PulsePattern) (time hprev : ℝ) : ℝ :=
  match p with
  | .Single_Boost =>
      if 0.5 ≤ time ∧ time ≤ 0.6 then 1.0 else 0.15
  | .Resonant_Pumping =>
      let natural_freq : ℝ := Real.sqrt (g / hprev)
      0.15 + 0.85 * (1 + Real.sin (2 * Real.pi * natural_freq * time)) / 2
  | .Staircase_Climbing =>
      if 0.2 ≤ time ∧ time ≤ 0.2 + 0.1 then 0.8
      else if 0.6 ≤ time ∧ time ≤ 0.6 + 0.1 then 0.8
      else if 1.0 ≤ time ∧ time ≤ 1.0 + 0.1 then 0.8
      else if 1.4 ≤ time ∧ time ≤ 1.4 + 0.1 then 0.8
      else 0.15
  | .Tesla_369_Resonance =>
      let cm : ℝ := 0.15 + 0.3 *
        (Real.sin (2 * Real.pi * 3 * time) +
         Real.sin (2 * Real.pi * 6 * time) +
         Real.sin (2 * Real.pi * 9 * time)) / 3
      max 0.05 cm

/-- `dt = 0.001` (the integration step of `simulate_pulse_jump`). -/
noncomputable def dt : ℝ := 0.001

/-- `time_steps = int(total_time / dt) = 2000`. -/
def time_steps : ℕ := 2000

/-- `t = np.linspace(0, 2.0, 2000)`, so `t[i] = 2·i/1999`. -/
noncomputable def tval (i : ℕ) : ℝ := 2.0 * i / 1999

/-- The value the loop reads as `height[i]` when it computes the field at
iteration `i`: `height[0] = 0.05` was assigned before the loop, while for
`i ≥ 1` the entry is still the `np.zeros` value `0`, because the loop only
assigns `height[i]` after the field computation of the same iteration. -/
noncomputable def heightForField (i : ℕ) : ℝ :=
  if i = 0 then 0.05 else 0

/-- `net_force = lift_force - self.weight` as computed at iteration `i`
(with `hprev = height[max(0, i-1)]` feeding the pattern policy); stored in
`force[i]`. -/
noncomputable def netForceAt (p : PulsePattern) (i : ℕ) (hprev : ℝ) : ℝ :=
  let cm := currentMult p (tval i) hprev
  let B_total := (calculate_field_at_distance (heightForField i) cm true).1
  calculate_lift_force B_total - weight

/-- `acceleration[i] = net_force / self.mass`. -/
noncomputable def accelAt (p : PulsePattern) (i : ℕ) (hprev : ℝ) : ℝ :=
  netForceAt p i hprev / mass

/-- The Euler update of lines 157–158: position advances with the previous
step's velocity, velocity with the previous step's acceleration. -/
noncomputable def eulerStep (h v a : ℝ) : ℝ × ℝ :=
  (h + v * dt, v + a * dt)

/-- The ground constraint of lines 161–163: a height below `0.001` m is
reset to `0.001` with the velocity zeroed; otherwise both are kept. -/
noncomputable def groundClamp (hv : ℝ × ℝ) : ℝ × ℝ :=
  if hv.1 < 0.001 then (0.001, 0) else hv

/-- State of the simulation loop after iteration `i`:
`(height[i], velocity[i], height[max(0, i-1)])`.  The third component is the
previous iteration's height, carried so that the `Resonant_Pumping` policy
can read `height[max(0, i-1)]` at the next step. -/
noncomputable def simState (p : PulsePattern) : ℕ → ℝ × ℝ × ℝ
  | 0 => (0.05, 0, 0.05)
  | i + 1 =>
      let s := simState p i
      let hv := groundClamp (eulerStep s.1 s.2.1 (accelAt p i s.2.2))
      (hv.1, hv.2, s.1)

/-- `height[i]` (metres, as integrated). -/
noncomputable def height (p : PulsePattern) (i : ℕ) : ℝ := (simState p i).1

/-- `velocity[i]` (m/s). -/
noncomputable def velocity (p : PulsePattern) (i : ℕ) : ℝ := (simState p i).2.1

/-- `acceleration[i]` (m/s²), with the previous height the loop supplies. -/
noncomputable def acceleration (p : PulsePattern) (i : ℕ) : ℝ :=
  accelAt p i (simState p i).2.2

/-- `force[i]` (N), the stored net force. -/
noncomputable def force (p : PulsePattern) (i : ℕ) : ℝ :=
  netForceAt p i (simState p i).2.2

/-- `current_profile[i]`. -/
noncomputable def current_profile (p : PulsePattern) (i : ℕ) : ℝ :=
  currentMult p (tval i) (simState p i).2.2

/-- The index range `0, …, time_steps - 1` of every simulation array is
nonempty. -/
theorem range_steps_nonempty : (Finset.range time_steps).Nonempty :=
  Finset.nonempty_range_iff.mpr (by decide)

/-- `np.max(height)` — the maximum simulated height, in metres. -/
noncomputable def max_height_m (p : PulsePattern) : ℝ :=
  (Finset.range time_steps).sup' range_steps_nonempty (height p)

/-- `max_height = np.max(height) * 100` (cm). -/
noncomputable def max_height (p : PulsePattern) : ℝ := max_height_m p * 100

/-- `kinetic_energy[i] = 0.5 * self.mass * velocity**2`. -/
noncomputable def kinetic_energy (p : PulsePattern) (i : ℕ) : ℝ :=
  0.5 * mass * velocity p i ^ 2

/-- `potential_energy[i] = self.mass * self.g * height`. -/
noncomputable def potential_energy (p : PulsePattern) (i : ℕ) : ℝ :=
  mass * g * height p i

/-- `total_energy = kinetic_energy + potential_energy`, pointwise. -/
noncomputable def total_energy (p : PulsePattern) (i : ℕ) : ℝ :=
  kinetic_energy p i + potential_energy p i

/-- `max_energy = np.max(total_energy)`. -/
noncomputable def max_energy (p : PulsePattern) : ℝ :=
  (Finset.range time_steps).sup' range_steps_nonempty (total_energy p)

/-- The energy-equivalent height, in metres: `max_energy / (self.mass * self.g)`. -/
noncomputable def energy_height_m (p : PulsePattern) : ℝ :=
  max_energy p / (mass * g)

/-- `energy_height_equivalent = max_energy / (self.mass * self.g) * 100` (cm). -/
noncomputable def energy_height (p : PulsePattern) : ℝ := energy_height_m p * 100

/-- The dictionary returned by `simulate_pulse_jump` (lines 184–192). -/
structure SimResult where
  time : ℕ → ℝ
  height : ℕ → ℝ
  velocity : ℕ → ℝ
  force : ℕ → ℝ
  current : ℕ → ℝ
  max_height : ℝ
  energy_height : ℝ

/-- `MHMPulseJumpingSystem.simulate_pulse_jump`: runs the loop embedded by
`simState` and assembles the returned dictionary, with `'height'` scaled by
`100` (cm) and `'velocity'`, `'force'`, `'time'` unscaled. -/
noncomputable def simulate_pulse_jump (p : PulsePattern) : SimResult where
  time := tval
  height := fun i => height p i * 100
  velocity := velocity p
  force := force p
  current := current_profile p
  max_height := max_height p
  energy_height := energy_height p

/-- The integration loop of `simulate_pulse_jump`, factored over an arbitrary
per-step acceleration sequence `a`: state `(height[i], velocity[i])` starts at
the steady hover `(0.05, 0)` and each step applies the Euler update followed
by the ground clamp.  `simState_eq_integrate` proves that the concrete
simulation is exactly this loop run on its computed accelerations. -/
noncomputable def integrate (a : ℕ → ℝ) : ℕ → ℝ × ℝ
  | 0 => (0.05, 0)
  | i + 1 =>
      let s := integrate a i
      groundClamp (eulerStep s.1 s.2 (a i))

/-- The concrete simulation state is the generic loop `integrate` applied to
the acceleration sequence the code computes. -/
theorem simState_eq_integrate (p : PulsePattern) (i : ℕ) :
    (height p i, velocity p i) = integrate (acceleration p) i := by
  induction i with
  | zero => simp [height, velocity, simState, integrate]
  | succ i ih =>
      have h1 : height p i = (integrate (acceleration p) i).1 := by
        rw [← ih]
      have h2 : velocity p i = (integrate (acceleration p) i).2 := by
        rw [← ih]
      simp only [integrate, ← h1, ← h2, height, velocity, simState, acceleration]

/-- One loop iteration, `i → i+1`: Euler update followed by the ground clamp. -/
theorem state_succ (p : PulsePattern) (i : ℕ) :
    (height p (i + 1), velocity p (i + 1)) =
      groundClamp (eulerStep (height p i) (velocity p i) (acceleration p i)) := by
  simp [height, velocity, simState, acceleration]

/-- Components of a step on which the ground clamp does not fire. -/
theorem state_succ_no_clamp (p : PulsePattern) (i : ℕ)
    (hnc : ¬ height p i + velocity p i * dt < 0.001) :
    height p (i + 1) = height p i + velocity p i * dt ∧
    velocity p (i + 1) = velocity p i + acceleration p i * dt := by
  have h := state_succ p i
  rw [eulerStep, groundClamp] at h
  simp only [if_neg hnc] at h
  exact ⟨congrArg Prod.fst h, congrArg Prod.snd h⟩

/-- C1: for every step `i ≥ 1`, the state is advanced by
`velocity[i] = velocity[i-1] + acceleration[i-1]·dt` and
`height[i] = height[i-1] + velocity[i-1]·dt` (the position update uses the
previous step's velocity), and only then is the ground clamp applied to the
resulting pair. -/
theorem C1_euler_update_ordering (p : PulsePattern) (i : ℕ) (h1 : 1 ≤ i) :
    (height p i, velocity p i) =
      groundClamp (height p (i - 1) + velocity p (i - 1) * dt,
                   velocity p (i - 1) + acceleration p (i - 1) * dt) := by
  obtain ⟨j, rfl⟩ : ∃ j, i = j + 1 := ⟨i - 1, by omega⟩
  simpa [eulerStep] using state_succ p j

/-- Witness for C1 at the concrete step `i = 1` of the `Single_Boost` run. -/
theorem C1_euler_update_ordering_witness :
    (1 ≤ 1) ∧
    (height PulsePattern.Single_Boost 1, velocity PulsePattern.Single_Boost 1) =
      groundClamp (height PulsePattern.Single_Boost 0 +
                     velocity PulsePattern.Single_Boost 0 * dt,
                   velocity PulsePattern.Single_Boost 0 +
                     acceleration PulsePattern.Single_Boost 0 * dt) :=
  ⟨le_refl 1, C1_euler_update_ordering PulsePattern.Single_Boost 1 (le_refl 1)⟩

/-- C2: for every step `i ≥ 1`, if the Euler update would put the height
below the floor `0.001` m then the reported height is exactly `0.001` and the
velocity is exactly `0`; otherwise both are exactly the Euler-updated
values. -/
theorem C2_ground_clamp (p : PulsePattern) (i : ℕ) (h1 : 1 ≤ i) :
    (height p (i - 1) + velocity p (i - 1) * dt < 0.001 →
       height p i = 0.001 ∧ velocity p i = 0) ∧
    (¬ height p (i - 1) + velocity p (i - 1) * dt < 0.001 →
       height p i = height p (i - 1) + velocity p (i - 1) * dt ∧
       velocity p i = velocity p (i - 1) + acceleration p (i - 1) * dt) := by
  obtain ⟨j, rfl⟩ : ∃ j, i = j + 1 := ⟨i - 1, by omega⟩
  have h := state_succ p j
  rw [eulerStep, groundClamp] at h
  simp only [Nat.add_sub_cancel]
  constructor
  · intro hlt
    rw [if_pos hlt] at h
    exact ⟨congrArg Prod.fst h, congrArg Prod.snd h⟩
  · intro hge
    rw [if_neg hge] at h
    exact ⟨congrArg Prod.fst h, congrArg Prod.snd h⟩

/-- Witness for C2 at the concrete step `i = 1` of the `Staircase_Climbing`
run. -/
theorem C2_ground_clamp_witness :
    (1 ≤ 1) ∧
    ((height PulsePattern.Staircase_Climbing 0 +
        velocity PulsePattern.Staircase_Climbing 0 * dt < 0.001 →
        height PulsePattern.Staircase_Climbing 1 = 0.001 ∧
        velocity PulsePattern.Staircase_Climbing 1 = 0) ∧
     (¬ height PulsePattern.Staircase_Climbing 0 +
        velocity PulsePattern.Staircase_Climbing 0 * dt < 0.001 →
        height PulsePattern.Staircase_Climbing 1 =
          height PulsePattern.Staircase_Climbing 0 +
            velocity PulsePattern.Staircase_Climbing 0 * dt ∧
        velocity PulsePattern.Staircase_Climbing 1 =
          velocity PulsePattern.Staircase_Climbing 0 +
            acceleration PulsePattern.Staircase_Climbing 0 * dt)) :=
  ⟨le_refl 1, by
    simpa using C2_ground_clamp PulsePattern.Staircase_Climbing 1 (le_refl 1)⟩

/-- C3: if the net force — hence the per-step acceleration — is exactly zero
at every step, the integration loop keeps the state at the initial hover
`(0.05, 0)`: the velocity is zero and the height equals the initial `0.05` m
at every step, so in particular the final height equals the initial one. -/
theorem C3_steady_state (a : ℕ → ℝ) (ha : ∀ i, a i = 0) (i : ℕ) :
    integrate a i = (0.05, 0) := by
  induction i with
  | zero => simp [integrate]
  | succ i ih =>
      rw [integrate, ih]
      simp only [eulerStep, groundClamp, ha i]
      norm_num [dt]

/-- Witness for C3: the zero acceleration sequence, evaluated at the final
step index `time_steps - 1 = 1999`. -/
theorem C3_steady_state_witness :
    (∀ i : ℕ, (fun _ : ℕ => (0 : ℝ)) i = 0) ∧
    integrate (fun _ : ℕ => (0 : ℝ)) 1999 = (0.05, 0) :=
  ⟨fun _ => rfl, C3_steady_state (fun _ => 0) (fun _ => rfl) 1999⟩

/-- `μ₀ = 4π·10⁻⁷` is positive. -/
theorem mu0_pos : (0 : ℝ) < mu0 := by
  unfold mu0
  positivity

/-- C4 counterexample: at the concrete input `B = 1`, the implemented lift
force differs from the magnetic-pressure value `B²·A/(2μ₀)` with
`A = coil_area · num_coils`, because the code multiplies in an extra factor
`0.95`. -/
theorem C4_counterexample :
    calculate_lift_force 1 ≠ 1 ^ 2 * (coil_area * num_coils) / (2 * mu0) := by
  have hmu : (0 : ℝ) < mu0 := mu0_pos
  intro h
  rw [calculate_lift_force] at h
  rw [div_eq_div_iff (by positivity) (by positivity)] at h
  rw [coil_area, num_coils] at h
  nlinarith [hmu]

/-- C4 amended: the implemented lift force is the magnetic-pressure formula
with the efficiency factor `0.95`:
`calculate_lift_force B = B²·(coil_area·num_coils)·0.95/(2μ₀)`. -/
theorem C4_lift_force_formula (B_total : ℝ) :
    calculate_lift_force B_total =
      B_total ^ 2 * (coil_area * num_coils) * 0.95 / (2 * mu0) := rfl

/-- C5: both implemented lift-force maps — `calculate_lift_force` of the
pulse-jump script and the pointwise `F_lift` of the mainstream-validation
script — are monotonically non-decreasing in `|B|`, and both vanish at
`B = 0`. -/
theorem C5_lift_monotone_zero (B1 B2 : ℝ) (h : |B1| ≤ |B2|) :
    calculate_lift_force B1 ≤ calculate_lift_force B2 ∧
    F_lift B1 ≤ F_lift B2 ∧
    calculate_lift_force 0 = 0 ∧ F_lift 0 = 0 := by
  have hmu : (0 : ℝ) < mu0 := mu0_pos
  have hsq : B1 ^ 2 ≤ B2 ^ 2 := by
    rw [← sq_abs B1, ← sq_abs B2]
    exact pow_le_pow_left₀ (abs_nonneg _) h 2
  refine ⟨?_, ?_, ?_, ?_⟩
  · rw [calculate_lift_force, calculate_lift_force, coil_area, num_coils]
    rw [div_le_div_iff_of_pos_right (by positivity)]
    nlinarith [hsq]
  · rw [F_lift, F_lift]
    rw [div_le_div_iff_of_pos_right (by positivity)]
    nlinarith [hsq]
  · rw [calculate_lift_force]
    norm_num
  · rw [F_lift]
    norm_num

/-- Witness for C5 at the concrete fields `B1 = 1`, `B2 = -2`. -/
theorem C5_lift_monotone_zero_witness :
    |(1 : ℝ)| ≤ |(-2 : ℝ)| ∧
    (calculate_lift_force 1 ≤ calculate_lift_force (-2) ∧
     F_lift 1 ≤ F_lift (-2) ∧
     calculate_lift_force 0 = 0 ∧ F_lift 0 = 0) :=
  ⟨by norm_num, C5_lift_monotone_zero 1 (-2) (by norm_num)⟩

/-- C8: `simulate_pulse_jump` is a pure function of the selected pulse
pattern and the instance constants: two invocations with the same pattern
selection produce identical `height`, `velocity`, `force`, `current` and
`time` series and identical summary values. -/
theorem C8_determinism (p q : PulsePattern) (hpq : p = q) :
    simulate_pulse_jump p = simulate_pulse_jump q := by
  rw [hpq]

/-- Witness for C8: two runs of the `Tesla_369_Resonance` pattern. -/
theorem C8_determinism_witness :
    PulsePattern.Tesla_369_Resonance = PulsePattern.Tesla_369_Resonance ∧
    simulate_pulse_jump PulsePattern.Tesla_369_Resonance =
      simulate_pulse_jump PulsePattern.Tesla_369_Resonance :=
  ⟨rfl, C8_determinism PulsePattern.Tesla_369_Resonance
    PulsePattern.Tesla_369_Resonance rfl⟩

/-- C10: in the returned dictionary, `'height'`, `'max_height'` and
`'energy_height'` are the internal metre-level values scaled by `100`
(centimetres), while `'velocity'`, `'force'` and `'time'` are the unscaled
SI-unit series. -/
theorem C10_output_units (p : PulsePattern) :
    (∀ i, (simulate_pulse_jump p).height i = 100 * height p i) ∧
    (simulate_pulse_jump p).max_height = 100 * max_height_m p ∧
    (simulate_pulse_jump p).energy_height = 100 * energy_height_m p ∧
    (simulate_pulse_jump p).velocity = velocity p ∧
    (simulate_pulse_jump p).force = force p ∧
    (simulate_pulse_jump p).time = tval := by
  refine ⟨fun i => ?_, ?_, ?_, rfl, rfl, rfl⟩
  · rw [simulate_pulse_jump]
    ring
  · rw [simulate_pulse_jump, max_height]
    ring
  · rw [simulate_pulse_jump, energy_height]
    ring

/-- C6: for every pattern, every time value and every height fed to the
policy (in particular every reachable one in the `Resonant_Pumping` case),
the computed current multiplier lies in `[0, 1]`. -/
theorem C6_current_mult_in_unit_interval (p : PulsePattern) (time hprev : ℝ) :
    0 ≤ currentMult p time hprev ∧ currentMult p time hprev ≤ 1 := by
  cases p with
  | Single_Boost =>
      rw [currentMult]
      split_ifs <;> norm_num
  | Resonant_Pumping =>
      rw [currentMult]
      have h1 := Real.neg_one_le_sin
        (2 * Real.pi * Real.sqrt (g / hprev) * time)
      have h2 := Real.sin_le_one
        (2 * Real.pi * Real.sqrt (g / hprev) * time)
      constructor <;> nlinarith
  | Staircase_Climbing =>
      rw [currentMult]
      split_ifs <;> norm_num
  | Tesla_369_Resonance =>
      rw [currentMult]
      have h1 := Real.sin_le_one (2 * Real.pi * 3 * time)
      have h2 := Real.sin_le_one (2 * Real.pi * 6 * time)
      have h3 := Real.sin_le_one (2 * Real.pi * 9 * time)
      constructor
      · exact le_trans (by norm_num) (le_max_left 0.05 _)
      · apply max_le (by norm_num)
        nlinarith

/-- C7: the reported energy-equivalent height (cm) is at least the reported
maximum kinematic height (cm): the peak of kinetic plus potential energy,
divided by `mass·g`, dominates the peak height because kinetic energy is
non-negative at every step. -/
theorem C7_energy_height_ge_max_height (p : PulsePattern) :
    max_height p ≤ energy_height p := by
  have hmg : (0 : ℝ) < mass * g := by
    rw [mass, g]
    norm_num
  have key : ∀ i ∈ Finset.range time_steps,
      height p i ≤ max_energy p / (mass * g) := by
    intro i hi
    have h1 : mass * g * height p i ≤ total_energy p i := by
      have hk : (0 : ℝ) ≤ kinetic_energy p i := by
        rw [kinetic_energy, mass]
        positivity
      rw [total_energy, potential_energy]
      linarith
    have h2 : total_energy p i ≤ max_energy p :=
      Finset.le_sup' (total_energy p) hi
    rw [le_div_iff₀ hmg]
    nlinarith
  have hsup : max_height_m p ≤ max_energy p / (mass * g) :=
    Finset.sup'_le range_steps_nonempty (height p) key
  rw [max_height, energy_height, energy_height_m]
  nlinarith [hsup]

/-- The total field dominates its static (permanent-magnet) component: the
coil contribution is non-negative whenever the distance and the current
multiplier are non-negative. -/
theorem field_lower_bound (d cm : ℝ) (hd : 0 ≤ d) (hcm : 0 ≤ cm) :
    B_static_const * (0.03 / (0.03 + d)) ^ 2 ≤
      (calculate_field_at_distance d cm true).1 := by
  simp only [calculate_field_at_distance, if_true]
  have h1 : (0 : ℝ) ≤ mu0 := mu0_pos.le
  have h2 : (0 : ℝ) ≤ (R_coil / (R_coil + d)) ^ (1.2 : ℝ) := by
    apply Real.rpow_nonneg
    rw [R_coil]
    apply div_nonneg (by norm_num)
    linarith
  have h3 : (0 : ℝ) ≤ mu0 * N_turns * (max_current_pulse * cm) * 3 := by
    rw [N_turns, max_current_pulse]
    nlinarith [mul_nonneg h1 hcm]
  have h4 : (0 : ℝ) ≤ mu0 * N_turns * (max_current_pulse * cm) * 3 / (2 * R_coil) := by
    apply div_nonneg h3
    rw [R_coil]
    norm_num
  have h5 : (0 : ℝ) ≤ mu0 * N_turns * (max_current_pulse * cm) * 3 / (2 * R_coil) *
      ((R_coil / (R_coil + d)) ^ (1.2 : ℝ)) * 0.98 * (array_factor / num_coils) := by
    apply mul_nonneg (mul_nonneg (mul_nonneg h4 h2) (by norm_num))
    rw [array_factor, num_coils]
    norm_num
  linarith

/-- Any total field of at least `0.25` T produces a lift force above the
`779` N weight: the magnetic-pressure force at that field over the
`0.44·27` m² effective area exceeds the weight by orders of magnitude. -/
theorem lift_exceeds_weight (B : ℝ) (hB : 0.25 ≤ B) :
    weight < calculate_lift_force B := by
  have hπu : Real.pi < 3.15 := Real.pi_lt_d2
  have hπl : (0 : ℝ) < Real.pi := Real.pi_pos
  have hB2 : (0.0625 : ℝ) ≤ B ^ 2 := by nlinarith
  rw [weight, mass, g, calculate_lift_force, coil_area, num_coils, mu0]
  rw [lt_div_iff₀ (by positivity)]
  nlinarith [hπu, hπl, hB2]

/-- In the `Single_Boost` run the per-step acceleration is strictly positive
at every step, whatever previous height is fed to the policy: the field is
evaluated at `heightForField i` (0.05 m at step 0, the stale zero at every
later step), both of which keep the static component at `≥ 0.25` T, and the
resulting lift force dwarfs the weight. -/
theorem single_boost_accel_pos (i : ℕ) (hprev : ℝ) :
    0 < accelAt PulsePattern.Single_Boost i hprev := by
  have hcm15 : (0.15 : ℝ) ≤ currentMult PulsePattern.Single_Boost (tval i) hprev := by
    rw [currentMult]
    split_ifs <;> norm_num
  have hcm : (0 : ℝ) ≤ currentMult PulsePattern.Single_Boost (tval i) hprev := by
    linarith
  have hBlow : (0.25 : ℝ) ≤ (calculate_field_at_distance (heightForField i)
      (currentMult PulsePattern.Single_Boost (tval i) hprev) true).1 := by
    rcases Nat.eq_zero_or_pos i with h0 | h0
    · have hf : heightForField i = 0.05 := by
        rw [heightForField, if_pos h0]
      rw [hf]
      calc (0.25 : ℝ) ≤ B_static_const * (0.03 / (0.03 + 0.05)) ^ 2 := by
            rw [B_static_const]
            norm_num
        _ ≤ _ := field_lower_bound 0.05 _ (by norm_num) hcm
    · have hf : heightForField i = 0 := by
        rw [heightForField, if_neg (by omega)]
      rw [hf]
      calc (0.25 : ℝ) ≤ B_static_const * (0.03 / (0.03 + 0)) ^ 2 := by
            rw [B_static_const]
            norm_num
        _ ≤ _ := field_lower_bound 0 _ (by norm_num) hcm
  have hw := lift_exceeds_weight _ hBlow
  simp only [accelAt, netForceAt]
  have hmass : (0 : ℝ) < mass := by
    rw [mass]
    norm_num
  exact div_pos (sub_pos.mpr hw) hmass

/-- Invariant of the `Single_Boost` run as the code executes it: the height
never drops below the initial `0.05` m, the velocity is non-negative, and it
is strictly positive from step 1 on. -/
theorem single_boost_state_lower (i : ℕ) :
    0.05 ≤ height PulsePattern.Single_Boost i ∧
    0 ≤ velocity PulsePattern.Single_Boost i ∧
    (1 ≤ i → 0 < velocity PulsePattern.Single_Boost i) := by
  have hdt : (0 : ℝ) < dt := by
    rw [dt]
    norm_num
  induction i with
  | zero =>
      refine ⟨?_, ?_, ?_⟩
      · simp [height, simState]
      · simp [velocity, simState]
      · omega
  | succ i ih =>
      obtain ⟨hh, hv, _⟩ := ih
      have ha : 0 < acceleration PulsePattern.Single_Boost i := by
        rw [acceleration]
        exact single_boost_accel_pos i _
      have hnc : ¬ height PulsePattern.Single_Boost i +
          velocity PulsePattern.Single_Boost i * dt < 0.001 := by
        nlinarith
      obtain ⟨hH, hV⟩ := state_succ_no_clamp _ i hnc
      refine ⟨?_, ?_, fun _ => ?_⟩
      · rw [hH]
        nlinarith
      · rw [hV]
        nlinarith
      · rw [hV]
        nlinarith

/-- C9 (behaviour of the code on the claimed scenario): in the
`Single_Boost` run the height stays at or above the initial `0.05` m and is
strictly increasing from step 1 onward — through the whole 2 s simulation,
far past the `t = 0.5…0.6 s` boost window.  Hence the peak is at the last
step and the final height equals the maximum: the trajectory never decays
back after the boost, contradicting the claimed ballistic peak-then-settle
profile.  The cause is that the loop computes the field from `height[i]`
before assigning it, i.e. at the stale zero entry for every `i ≥ 1`, where
the lift force always exceeds the weight. -/
theorem C9_single_boost_code_divergence (i : ℕ) (h1 : 1 ≤ i) :
    0.05 ≤ height PulsePattern.Single_Boost i ∧
    height PulsePattern.Single_Boost i < height PulsePattern.Single_Boost (i + 1) := by
  obtain ⟨hh, _, hs⟩ := single_boost_state_lower i
  have hvpos := hs h1
  have hdt : (0 : ℝ) < dt := by
    rw [dt]
    norm_num
  have hnc : ¬ height PulsePattern.Single_Boost i +
      velocity PulsePattern.Single_Boost i * dt < 0.001 := by
    nlinarith
  obtain ⟨hH, _⟩ := state_succ_no_clamp _ i hnc
  refine ⟨hh, ?_⟩
  rw [hH]
  nlinarith

/-- Witness for C9's code-behaviour theorem at the concrete step `i = 1`. -/
theorem C9_single_boost_code_divergence_witness :
    (1 ≤ 1) ∧
    (0.05 ≤ height PulsePattern.Single_Boost 1 ∧
     height PulsePattern.Single_Boost 1 < height PulsePattern.Single_Boost 2) :=
  ⟨le_refl 1, C9_single_boost_code_divergence 1 (le_refl 1)⟩

end MHMPulse
